import Mathlib

/-!
# Verification of the swarm-vault yield-bearing stable rotation service

Shallow embedding of the rotation decision and matching engine:

* `src/services/defillama.js` (current revision, with the USD-symbol
  allow-list and the walk of the APY-descending ranking): token address
  table, `getTokenAddress`, `fetchYieldPools` retry loop,
  `filterBaseStablecoins`, `getTopYieldingStable`;
* `src/services/balances.js`: `buildPoolLookup`, `getTokenAddressForPool`,
  `matchHoldingToPool`, `getCurrentHoldingApy`, `filterYieldBearingHoldings`;
* `src/services/rotator.js`: `shouldRotate`, `calculateRotations`;
* `src/services/swapper.js`: `validateSwap`;
* `src/config.js`: configuration defaults.

JS numbers are modelled as `ℚ` (the quantities involved are exact in both
models), possibly-absent JS values as `Option`, and the HTTP layer of the
retry loop as an oracle mapping attempt numbers to outcomes.  String case
mapping (`toUpperCase`/`toLowerCase`, ASCII in all data involved) is
modelled character-wise.
-/

namespace SwarmRotation

/-! ## JS string helpers -/

/-- `s.toUpperCase()` (ASCII case mapping, character-wise). -/
def jsToUpper (s : String) : String := ⟨s.data.map Char.toUpper⟩

/-- `s.toLowerCase()` (ASCII case mapping, character-wise). -/
def jsToLower (s : String) : String := ⟨s.data.map Char.toLower⟩

/-- `big.includes(sub)` on character lists: some split of `l` has `sub`
as a prefix of its second half. -/
def charsContain (sub : List Char) : List Char → Bool
  | [] => sub.isEmpty
  | c :: t => sub.isPrefixOf (c :: t) || charsContain sub t

/-- `big.includes(sub)`: substring containment, as in JS `String.includes`. -/
def strContains (big sub : String) : Bool := charsContain sub.data big.data

/-- JS truthiness of a possibly-absent string (`undefined`/`null` and the
empty string are falsy). -/
def strTruthy : Option String → Bool
  | none => false
  | some s => s ≠ ""

/-- JS `x || null` on a possibly-absent string: collapses the falsy empty
string to `null`. -/
def strOrNull (o : Option String) : Option String :=
  match o with
  | some s => if s = "" then none else some s
  | none => none

/-- JS strict equality `a === b` where the `none`s on the two sides stand
for distinct nullish values (`null` vs `undefined`), so `none` never equals
`none`. -/
def strStrictEq (a b : Option String) : Bool :=
  match a, b with
  | some x, some y => x = y
  | _, _ => false

/-! ## Configuration (`src/config.js`) -/

/-- The configuration surface of `src/config.js` (fields the engine reads). -/
structure Config where
  chain : String
  minApyImprovement : ℚ
  minBalanceUsd : ℚ
  maxRetries : ℕ
  retryDelayMs : ℚ
  deriving Repr

/-- The defaults of `src/config.js` (no environment overrides). -/
def defaultConfig : Config :=
  { chain := "Base"
    minApyImprovement := 0.5
    minBalanceUsd := 10
    maxRetries := 3
    retryDelayMs := 1000 }

/-! ## Data model -/

/-- One DeFiLlama pool record, with the fields the engine reads.  Fields the
feed may omit are `Option`s (the code reads them through `?.` / `|| 0`). -/
structure Pool where
  poolId : Option String
  chain : Option String
  symbol : Option String
  project : Option String
  apy : Option ℚ
  tvlUsd : Option ℚ
  stablecoin : Bool
  deriving Repr, DecidableEq

/-- `pool.apy || 0`. -/
def apyD (p : Pool) : ℚ := p.apy.getD 0

/-- `pool.tvlUsd || 0`. -/
def tvlD (p : Pool) : ℚ := p.tvlUsd.getD 0

/-- One raw member holding (fields the engine reads). -/
structure Holding where
  symbol : Option String
  address : Option String
  balance : ℚ
  balanceUsd : ℚ
  decimals : ℕ
  deriving Repr, DecidableEq

/-- A holding enriched by `getCurrentHoldingApy` (spread of the input
holding plus the APY-match fields). -/
structure EnrichedHolding where
  symbol : Option String
  address : Option String
  balance : ℚ
  balanceUsd : ℚ
  decimals : ℕ
  currentApy : ℚ
  pool : Option Pool
  hasYieldData : Bool
  matchedProject : Option String
  deriving Repr, DecidableEq

/-! ## Token address table and resolution (`src/services/defillama.js`) -/

/-- `tokenAddressMap`: `(project, symbol fragment) -> Base token address`,
in source order. -/
def tokenAddressMap : List (String × List (String × String)) :=
  [ ("aave-v3",
      [("USDC", "0x4e65fE4DbA92790696d040ac24Aa414708F5c0AB")]),
    ("moonwell-lending",
      [("USDC", "0xEdc817A28E8B93B03976FBd4a3dDBc9f7D176c22"),
       ("DAI", "0x73b06D8d18De422E269645eaCe15400DE7462417")]),
    ("seamless-v2",
      [("USDC", "0x53E240C0F985175dA046A62F26D490d1E259036e")]) ]

/-- `getTokenAddress(project, symbol)`: look the project up in
`tokenAddressMap`, then return the address of the first key the uppercased
symbol contains.  A nullish project misses the map and yields `null`; on a
mapped (non-empty) project map with a nullish symbol, the predicate
`symbol.toUpperCase().includes(...)` has no optional chaining and raises a
TypeError on the first key, modelled as `Except.error ()`. -/
def getTokenAddress (project : Option String) (symbol : Option String) :
    Except Unit (Option String) :=
  match project.bind (fun pr => tokenAddressMap.lookup pr) with
  | none => Except.ok none
  | some projectMap =>
    match projectMap, symbol with
    | [], _ => Except.ok none
    | _ :: _, none => Except.error ()
    | kv0 :: rest, some sym =>
      match (kv0 :: rest).find? (fun kv => strContains (jsToUpper sym) (jsToUpper kv.1)) with
      | some kv => Except.ok (some kv.2)
      | none => Except.ok none

/-- `getTokenAddressForPool(pool)` (`balances.js`): same resolution, driven
by the pool's own project and symbol (`pool.symbol?.toUpperCase().includes`
short-circuits to no match when the symbol is absent). -/
def getTokenAddressForPool (p : Pool) : Option String :=
  match p.project.bind (fun pr => tokenAddressMap.lookup pr) with
  | none => none
  | some projectMap =>
    match p.symbol with
    | none => none
    | some sym =>
      match projectMap.find? (fun kv => strContains (jsToUpper sym) (jsToUpper kv.1)) with
      | some kv => some kv.2
      | none => none

/-! ## Pool lookup indexes (`buildPoolLookup`, `balances.js`) -/

/-- The symbol-index key of a pool: `pool.symbol?.toLowerCase()`, skipped
by `buildPoolLookup` when falsy. -/
def symKey (p : Pool) : Option String :=
  match p.symbol with
  | none => none
  | some s => if s = "" then none else some (jsToLower s)

/-- The two lookup indexes `buildPoolLookup` derives from the catalog
(the `byProject` index it also builds is never read by the matcher), kept
as insertion-ordered association lists. -/
structure PoolLookup where
  bySymbol : List (String × Pool)
  byAddress : List (String × Pool)
  deriving Repr

/-- `buildPoolLookup(yieldPools)`. -/
def buildPoolLookup (yieldPools : List Pool) : PoolLookup :=
  { bySymbol := yieldPools.filterMap (fun p => (symKey p).map (fun k => (k, p)))
    byAddress := yieldPools.filterMap (fun p =>
      (getTokenAddressForPool p).map (fun a => (jsToLower a, p))) }

/-- `lookup.bySymbol.get(k)`: all pools pushed under key `k`, in insertion
order (the JS map accumulates an array per key). -/
def PoolLookup.getSymbol (l : PoolLookup) (k : String) : List Pool :=
  (l.bySymbol.filter (fun kv => kv.1 = k)).map (fun kv => kv.2)

/-- `lookup.byAddress.get(k)`: last write wins (`Map.set` overwrites). -/
def PoolLookup.getAddress (l : PoolLookup) (k : String) : Option Pool :=
  ((l.byAddress.filter (fun kv => kv.1 = k)).getLast?).map (fun kv => kv.2)

/-! ## Holding matcher (`balances.js`) -/

/-- The yield-bearing prefixes of the regex
`/^(A|C|M|S|ABAS|CBAS|MBAS|SBAS)(USDC|USDT|DAI|USDBC)/i`. -/
def yieldPrefixes : List String := ["A", "C", "M", "S", "ABAS", "CBAS", "MBAS", "SBAS"]

/-- The base stable symbols of the same regex. -/
def yieldBases : List String := ["USDC", "USDT", "DAI", "USDBC"]

/-- `yieldBearingPattern.test(symbol)` on an already-uppercased symbol:
some prefix-base concatenation starts the symbol (regex alternation with
backtracking, anchored at the start only). -/
def isYieldBearingSymbol (symbolUpper : String) : Bool :=
  yieldPrefixes.any (fun pre =>
    yieldBases.any (fun base =>
      List.isPrefixOf (pre ++ base).data symbolUpper.data))

/-- `matchHoldingToPool(holding, lookup)`: address match first (skipped on
a falsy address), then symbol match gated by the yield-bearing pattern,
taking the highest-APY candidate (`reduce` keeps the incumbent on ties);
plain stablecoins fall through to `null`. -/
def matchHoldingToPool (symbol address : Option String) (lookup : PoolLookup) : Option Pool :=
  let addressMatch : Option Pool :=
    match address with
    | some a => if a = "" then none else lookup.getAddress (jsToLower a)
    | none => none
  match addressMatch with
  | some p => some p
  | none =>
    let symbolUpper := jsToUpper (symbol.getD "")
    if isYieldBearingSymbol symbolUpper then
      match lookup.getSymbol (jsToLower symbolUpper) with
      | [] => none
      | m :: ms => some (ms.foldl (fun best p => if apyD best < apyD p then p else best) m)
    else none

/-- The per-holding enrichment of `getCurrentHoldingApy`: spread the
holding and add its matched pool, `currentApy` (`matchingPool?.apy || 0`),
`hasYieldData` and `matchedProject` (`matchingPool?.project || null`). -/
def enrichHolding (lookup : PoolLookup) (h : Holding) : EnrichedHolding :=
  let matchingPool := matchHoldingToPool h.symbol h.address lookup
  { symbol := h.symbol
    address := h.address
    balance := h.balance
    balanceUsd := h.balanceUsd
    decimals := h.decimals
    currentApy := (matchingPool.bind Pool.apy).getD 0
    pool := matchingPool
    hasYieldData := matchingPool.isSome
    matchedProject := strOrNull (matchingPool.bind Pool.project) }

/-- `getCurrentHoldingApy(userHoldings, yieldPools)`: `[]` on an empty or
nullish input, else map the enrichment over the holdings. -/
def getCurrentHoldingApy (userHoldings : List Holding) (yieldPools : List Pool) :
    List EnrichedHolding :=
  if userHoldings.isEmpty then []
  else userHoldings.map (enrichHolding (buildPoolLookup yieldPools))

/-- The rotation-source stablecoin allow-list of
`filterYieldBearingHoldings`. -/
def rotatableStableSymbols : List String := ["USDC", "USDT", "DAI", "USDBC", "FRAX", "LUSD"]

/-- `filterYieldBearingHoldings(holdings, yieldPools)`: keep holdings that
are a plain stablecoin or match a yield pool, and meet the minimum balance
(`balanceUsd >= config.minBalanceUsd` or a positive balance whose USD value
was never computed). -/
def filterYieldBearingHoldings (cfg : Config) (holdings : List EnrichedHolding)
    (yieldPools : List Pool) : List EnrichedHolding :=
  let lookup := buildPoolLookup yieldPools
  holdings.filter (fun h =>
    let symbolUpper := jsToUpper (h.symbol.getD "")
    let isPlainStable := rotatableStableSymbols.contains symbolUpper
    let isYieldBearing := (matchHoldingToPool h.symbol h.address lookup).isSome
    let isEligible := isPlainStable || isYieldBearing
    let meetsMinBalance :=
      decide (cfg.minBalanceUsd ≤ h.balanceUsd) ||
      (decide (h.balanceUsd = 0) && decide (0 < h.balance))
    isEligible && meetsMinBalance)

/-! ## Rotation planner (`src/services/rotator.js`) -/

/-- `shouldRotate(currentApy, bestApy)`:
`bestApy - currentApy >= config.minApyImprovement`. -/
def shouldRotate (cfg : Config) (currentApy bestApy : ℚ) : Bool :=
  decide (cfg.minApyImprovement ≤ bestApy - currentApy)

/-- The best-pool record produced by `getTopYieldingStable` (the
`underlyingTokens` pass-through, read by no decision logic, is omitted). -/
structure TopPool where
  poolId : Option String
  symbol : Option String
  project : Option String
  apy : ℚ
  tvlUsd : Option ℚ
  tokenAddress : Option String
  deriving Repr, DecidableEq

/-- One swarm member as seen by `calculateRotations`: wallet address,
membership id, and the already-filtered `yieldBearingHoldings`. -/
structure User where
  address : Option String
  membershipId : Option String
  yieldBearingHoldings : List EnrichedHolding
  deriving Repr

/-- The `fromToken` snapshot of a rotation.  `validateSwap` accepts
arbitrary objects, so every field is possibly absent; `calculateRotations`
always fills them. -/
structure FromToken where
  symbol : Option String
  address : Option String
  balance : Option ℚ
  balanceUsd : Option ℚ
  currentApy : Option ℚ
  deriving Repr, DecidableEq

/-- The `toToken` snapshot of a rotation. -/
structure ToToken where
  symbol : Option String
  address : Option String
  project : Option String
  targetApy : Option ℚ
  deriving Repr, DecidableEq

/-- One rotation recommendation (also the argument shape of
`validateSwap`). -/
structure Rotation where
  userAddress : Option String
  membershipId : Option String
  fromToken : Option FromToken
  toToken : Option ToToken
  apyImprovement : ℚ
  estimatedAnnualGainUsd : ℚ
  deriving Repr, DecidableEq

/-- JS `Math.abs`. -/
def mathAbs (q : ℚ) : ℚ := if q < 0 then -q else q

/-- The `isInBestPool` skip of `calculateRotations`:
`holding.matchedProject === bestPool.project &&
Math.abs((holding.currentApy || 0) - bestPool.apy) < 0.1`. -/
def isInBestPool (h : EnrichedHolding) (bestPool : TopPool) : Bool :=
  strStrictEq h.matchedProject bestPool.project &&
    decide (mathAbs (h.currentApy - bestPool.apy) < 0.1)

/-- The recommendation `calculateRotations` pushes for a qualifying
holding of a user. -/
def mkRotation (u : User) (h : EnrichedHolding) (bestPool : TopPool) : Rotation :=
  { userAddress := u.address
    membershipId := u.membershipId
    fromToken := some
      { symbol := h.symbol
        address := h.address
        balance := some h.balance
        balanceUsd := some h.balanceUsd
        currentApy := some h.currentApy }
    toToken := some
      { symbol := bestPool.symbol
        address := bestPool.tokenAddress
        project := bestPool.project
        targetApy := some bestPool.apy }
    apyImprovement := bestPool.apy - h.currentApy
    estimatedAnnualGainUsd := h.balanceUsd * (bestPool.apy - h.currentApy) / 100 }

/-- `calculateRotations(users, bestPool)`: for each user and each of its
`yieldBearingHoldings`, skip holdings already in the best pool, and emit a
recommendation when `shouldRotate` approves. -/
def calculateRotations (cfg : Config) (users : List User) (bestPool : Option TopPool) :
    List Rotation :=
  match bestPool with
  | none => []
  | some bp =>
    users.flatMap (fun u =>
      u.yieldBearingHoldings.filterMap (fun h =>
        if isInBestPool h bp then none
        else if shouldRotate cfg h.currentApy bp.apy then some (mkRotation u h bp)
        else none))

/-! ## Swap dispatcher validation (`src/services/swapper.js`) -/

/-- The result object of `validateSwap`. -/
structure ValidationResult where
  valid : Bool
  errors : List String
  deriving Repr, DecidableEq

/-- `validateSwap(rotation)`: collect an error message per failed rule;
valid iff no errors.  The function is total (the JS code never throws:
every field access is optional-chained or short-circuited). -/
def validateSwap (cfg : Config) (r : Rotation) : ValidationResult :=
  let e1 := if strTruthy r.userAddress then [] else ["Missing user address"]
  let e2 := if strTruthy (r.fromToken.bind FromToken.symbol) then [] else ["Missing source token"]
  let e3 := if strTruthy (r.toToken.bind ToToken.symbol) then [] else ["Missing destination token"]
  let e4 :=
    match r.fromToken.bind FromToken.balance with
    | none => ["Invalid swap amount"]
    | some b => if b ≤ 0 then ["Invalid swap amount"] else []
  let e5 :=
    match r.fromToken.bind FromToken.balanceUsd with
    | none => []
    | some u => if u < cfg.minBalanceUsd then ["Balance below minimum"] else []
  let errors := e1 ++ e2 ++ e3 ++ e4 ++ e5
  { valid := errors.isEmpty, errors := errors }

/-! ## Yield catalog builder (`src/services/defillama.js`) -/

/-- The USD-stable symbol allow-list of `filterBaseStablecoins`. -/
def usdSymbols : List String :=
  ["USDC", "USDT", "DAI", "USDBC", "FRAX", "LUSD", "GUSD", "BUSD", "TUSD", "USD+", "DOLA"]

/-- `filterBaseStablecoins(pools, minTvl, maxApy)`: target chain, stable
flag, TVL floor, APY ceiling, and USD-symbol containment. -/
def filterBaseStablecoins (cfg : Config) (pools : List Pool) (minTvl maxApy : ℚ) :
    List Pool :=
  pools.filter (fun pool =>
    let isBase := pool.chain = some cfg.chain
    let isStablecoin := pool.stablecoin = true
    let hasMinTvl := minTvl ≤ tvlD pool
    let belowMaxApy := apyD pool ≤ maxApy
    let isUsdBased := usdSymbols.any (fun usd => strContains (jsToUpper (pool.symbol.getD "")) usd)
    decide isBase && decide isStablecoin && decide hasMinTvl && decide belowMaxApy && isUsdBased)

/-- The descending-APY comparison underlying
`pools.sort((a, b) => (b.apy || 0) - (a.apy || 0))`. -/
def apyGE (a b : Pool) : Prop := apyD b ≤ apyD a

instance : DecidableRel apyGE := fun a b => inferInstanceAs (Decidable (apyD b ≤ apyD a))

instance : IsTotal Pool apyGE := ⟨fun a b => le_total (apyD b) (apyD a)⟩

instance : IsTrans Pool apyGE := ⟨fun _ _ _ h1 h2 => le_trans h2 h1⟩

/-- `[...pools].sort((a, b) => (b.apy || 0) - (a.apy || 0))`: JS `sort` is
stable, and a stable sort by a total preorder has a unique result, so the
stable `insertionSort` computes it. -/
def sortByApyDesc (pools : List Pool) : List Pool := List.insertionSort apyGE pools

/-- Whether `getTokenAddress` resolves a token address for a pool. -/
def resolvable (p : Pool) : Bool :=
  match getTokenAddress p.project p.symbol with
  | Except.ok (some _) => true
  | _ => false

/-- Whether probing a pool's token address raises the TypeError (mapped
project, absent symbol). -/
def tokenThrows (p : Pool) : Bool :=
  match getTokenAddress p.project p.symbol with
  | Except.error _ => true
  | _ => false

/-- The result record `getTopYieldingStable` builds from a pool. -/
def mkTopPool (p : Pool) (addr : Option String) : TopPool :=
  { poolId := p.poolId
    symbol := p.symbol
    project := p.project
    apy := apyD p
    tvlUsd := p.tvlUsd
    tokenAddress := addr }

/-- The `for` loop of `getTopYieldingStable`: probe each ranked pool's
token address in order, returning the first pool that resolves, and
propagating the TypeError `getTokenAddress` may raise. -/
def walkForAddress : List Pool → Except Unit (Option (Pool × String))
  | [] => Except.ok none
  | p :: rest =>
    match getTokenAddress p.project p.symbol with
    | Except.error e => Except.error e
    | Except.ok (some addr) => Except.ok (some (p, addr))
    | Except.ok none => walkForAddress rest

/-- `getTopYieldingStable(pools)`: `null` on a nullish or empty input;
otherwise walk the APY-descending ranking for the first pool with a
resolvable token address, falling back to the top-ranked pool with a
`null` address.  A TypeError raised while probing a ranked pool escapes
the function (`Except.error`). -/
def getTopYieldingStable (pools : Option (List Pool)) : Except Unit (Option TopPool) :=
  match pools with
  | none => Except.ok none
  | some ps =>
    if ps.isEmpty then Except.ok none
    else
      let sorted := sortByApyDesc ps
      match walkForAddress sorted with
      | Except.error e => Except.error e
      | Except.ok (some (p, addr)) => Except.ok (some (mkTopPool p (some addr)))
      | Except.ok none =>
        match sorted.head? with
        | some best => Except.ok (some (mkTopPool best none))
        | none => Except.ok none

/-! ## Yield-feed fetch retry loop (`fetchYieldPools`) -/

/-- The observable trace of one `fetchYieldPools` run: how many attempts
were made, the delays slept between consecutive attempts (in order), and
the outcome (`Except.error ()` models the final throw). -/
structure FetchRun where
  attemptsMade : ℕ
  delays : List ℚ
  result : Except Unit (List Pool)
  deriving Repr

/-- The retry loop of `fetchYieldPools`, driven by an oracle giving each
attempt's network outcome (`.ok` carries `response.data.data || []`).
`attempt` is the 1-based number of the next attempt and `remaining` how
many attempts are still allowed; on a failure that is not the last
attempt, the loop sleeps `config.retryDelayMs * attempt`. -/
def fetchGo (oracle : ℕ → Except Unit (List Pool)) (delayMs : ℚ) :
    (attempt remaining : ℕ) → FetchRun
  | _, 0 => { attemptsMade := 0, delays := [], result := Except.error () }
  | attempt, r + 1 =>
    match oracle attempt with
    | Except.ok pools => { attemptsMade := 1, delays := [], result := Except.ok pools }
    | Except.error _ =>
      if r = 0 then { attemptsMade := 1, delays := [], result := Except.error () }
      else
        let rest := fetchGo oracle delayMs (attempt + 1) r
        { attemptsMade := rest.attemptsMade + 1
          delays := delayMs * attempt :: rest.delays
          result := rest.result }

/-- `fetchYieldPools()`: attempts `1 .. config.maxRetries`. -/
def fetchYieldPools (cfg : Config) (oracle : ℕ → Except Unit (List Pool)) : FetchRun :=
  fetchGo oracle cfg.retryDelayMs 1 cfg.maxRetries

/-! ## Sample data (the fixtures of `__tests__/balances.test.js`) -/

/-- The mock catalog of the balance-service tests. -/
def samplePools : List Pool :=
  [ { poolId := some "aave-base-usdc", chain := some "Base", symbol := some "USDC",
      project := some "aave-v3", apy := some (mkRat 11 2), tvlUsd := some 10000000, stablecoin := true },
    { poolId := some "compound-base-usdc", chain := some "Base", symbol := some "USDC",
      project := some "compound-v3", apy := some (mkRat 21 5), tvlUsd := some 5000000, stablecoin := true },
    { poolId := some "moonwell-base-usdc", chain := some "Base", symbol := some "USDC",
      project := some "moonwell-lending", apy := some (mkRat 61 10), tvlUsd := some 7500000, stablecoin := true },
    { poolId := some "moonwell-base-dai", chain := some "Base", symbol := some "DAI",
      project := some "moonwell-lending", apy := some (mkRat 24 5), tvlUsd := some 3000000, stablecoin := true } ]

/-- The mock holdings of the balance-service tests. -/
def sampleHoldings : List Holding :=
  [ { symbol := some "USDC", address := some "0x4e65fE4DbA92790696d040ac24Aa414708F5c0AB",
      balance := 1000, balanceUsd := 1000, decimals := 6 },
    { symbol := some "DAI", address := some "0x73b06D8d18De422E269645eaCe15400DE7462417",
      balance := 500, balanceUsd := 500, decimals := 18 },
    { symbol := some "ETH", address := some "0xEeeeeEeeeEeEeeEeEeEeeEEEeeeeEeeeeeeeEEeE",
      balance := mkRat 1 2, balanceUsd := 1500, decimals := 18 } ]

/-- The moonwell pool of `samplePools` as the top-yield record (as
`getTopYieldingStable` builds it). -/
def sampleTop : TopPool :=
  { poolId := some "moonwell-base-usdc", symbol := some "USDC",
    project := some "moonwell-lending", apy := 6.1, tvlUsd := some 7500000,
    tokenAddress := some "0xEdc817A28E8B93B03976FBd4a3dDBc9f7D176c22" }

/-- A plain-USDC holding holding a positive token balance whose USD value
was never computed (`balanceUsd = 0`), already enriched (no pool match). -/
def sampleZeroUsdHolding : EnrichedHolding :=
  { symbol := some "USDC", address := none, balance := 100, balanceUsd := 0, decimals := 6,
    currentApy := 0, pool := none, hasYieldData := false, matchedProject := none }

/-- A plain-USDC holding worth 1000 USD, enriched with `currentApy = 5`. -/
def sampleRichHolding : EnrichedHolding :=
  { symbol := some "USDC", address := some "0x4e65fE4DbA92790696d040ac24Aa414708F5c0AB",
    balance := 1000, balanceUsd := 1000, decimals := 6,
    currentApy := 5, pool := none, hasYieldData := true, matchedProject := some "aave-v3" }

/-- A target record at 6.5% APY for the gain-computation scenario. -/
def sampleTop65 : TopPool :=
  { poolId := some "moonwell-base-usdc", symbol := some "USDC",
    project := some "moonwell-lending", apy := 6.5, tvlUsd := some 7500000,
    tokenAddress := some "0xEdc817A28E8B93B03976FBd4a3dDBc9f7D176c22" }

/-! ## C3: the planner threshold comparison -/

/-- C3: `shouldRotate(currentApy, bestApy)` returns true iff
`bestApy - currentApy >= config.minApyImprovement` (a `>=`, not `>`), and
with the default threshold 0.5, `shouldRotate(4.0, 4.5) = true` while
`shouldRotate(4.0, 4.49) = false`. -/
theorem shouldRotate_ge_threshold :
    (∀ (cfg : Config) (currentApy bestApy : ℚ),
      shouldRotate cfg currentApy bestApy = true ↔
        cfg.minApyImprovement ≤ bestApy - currentApy) ∧
    shouldRotate defaultConfig 4.0 4.5 = true ∧
    shouldRotate defaultConfig 4.0 4.49 = false := by
  refine ⟨fun cfg c b => ?_, ?_, ?_⟩
  · simp [shouldRotate]
  · norm_num [shouldRotate, defaultConfig]
  · norm_num [shouldRotate, defaultConfig]

/-! ## C5: plain base-currency symbols never match -/

/-- C5: a holding with symbol exactly "USDC" and no address is enriched
with `currentApy = 0` and `hasYieldData = false`, whatever the catalog. -/
theorem plain_usdc_never_matches (yieldPools : List Pool) (balance balanceUsd : ℚ)
    (decimals : ℕ) :
    getCurrentHoldingApy
        [{ symbol := some "USDC", address := none, balance := balance,
           balanceUsd := balanceUsd, decimals := decimals }] yieldPools =
      [{ symbol := some "USDC", address := none, balance := balance,
         balanceUsd := balanceUsd, decimals := decimals,
         currentApy := 0, pool := none, hasYieldData := false, matchedProject := none }] := by
  have hpat : isYieldBearingSymbol (jsToUpper "USDC") = false := by decide
  simp [getCurrentHoldingApy, enrichHolding, matchHoldingToPool, hpat, strOrNull]

/-! ## C7: the catalog filtering invariant -/

/-- C7: every pool returned by `filterBaseStablecoins` is on the target
chain, flagged stable, above the TVL floor, below the APY ceiling, and its
symbol contains a recognized USD-stable fragment. -/
theorem filterBaseStablecoins_invariant (cfg : Config) (pools : List Pool)
    (minTvl maxApy : ℚ) (p : Pool)
    (hp : p ∈ filterBaseStablecoins cfg pools minTvl maxApy) :
    p.chain = some cfg.chain ∧ p.stablecoin = true ∧ minTvl ≤ tvlD p ∧
      apyD p ≤ maxApy ∧
      usdSymbols.any (fun usd => strContains (jsToUpper (p.symbol.getD "")) usd) = true := by
  rw [filterBaseStablecoins, List.mem_filter] at hp
  simpa [Bool.and_eq_true, decide_eq_true_eq, and_assoc] using hp.2

/-- Witness for C7 at the aave pool of the sample catalog. -/
theorem filterBaseStablecoins_invariant_witness :
    (samplePools.get ⟨0, by decide⟩).chain = some defaultConfig.chain ∧
      (samplePools.get ⟨0, by decide⟩).stablecoin = true ∧
      (100000 : ℚ) ≤ tvlD (samplePools.get ⟨0, by decide⟩) ∧
      apyD (samplePools.get ⟨0, by decide⟩) ≤ 25 ∧
      usdSymbols.any
        (fun usd => strContains (jsToUpper ((samplePools.get ⟨0, by decide⟩).symbol.getD "")) usd) =
        true :=
  filterBaseStablecoins_invariant defaultConfig samplePools 100000 25 _ (by decide)

/-! ## C4: address match wins outright -/

/-- A value delivered by an association-list lookup is a stored value. -/
theorem mem_of_lookup_eq_some {β : Type} (k : String) (v : β) :
    ∀ l : List (String × β), l.lookup k = some v → ∃ kv, kv ∈ l ∧ kv.2 = v := by
  intro l
  induction l with
  | nil => intro h; simp [List.lookup] at h
  | cons a t ih =>
    intro h
    obtain ⟨k1, v1⟩ := a
    rw [List.lookup] at h
    by_cases hk : (k == k1) = true
    · rw [hk] at h
      exact ⟨(k1, v1), List.mem_cons_self _ _, by simpa using h⟩
    · rw [Bool.not_eq_true] at hk
      rw [hk] at h
      obtain ⟨kv, hmem, hv⟩ := ih h
      exact ⟨kv, List.mem_cons_of_mem _ hmem, hv⟩

/-- Every address stored in the static token table stays non-empty after
lowercasing. -/
theorem tokenAddressMap_values_ne_empty :
    ∀ e ∈ tokenAddressMap, ∀ kv ∈ e.2, jsToLower kv.2 ≠ "" := by decide

/-- Any address `getTokenAddressForPool` resolves lowercases to a
non-empty index key. -/
theorem getTokenAddressForPool_key_ne_empty (p : Pool) (a : String)
    (h : getTokenAddressForPool p = some a) : jsToLower a ≠ "" := by
  unfold getTokenAddressForPool at h
  cases hpr : p.project.bind (fun pr => tokenAddressMap.lookup pr) with
  | none => rw [hpr] at h; cases h
  | some pm =>
    rw [hpr] at h
    cases hsym : p.symbol with
    | none => rw [hsym] at h; cases h
    | some sym =>
      rw [hsym] at h
      dsimp only at h
      cases hf : pm.find? (fun kv => strContains (jsToUpper sym) (jsToUpper kv.1)) with
      | none => rw [hf] at h; cases h
      | some kv =>
        rw [hf] at h
        obtain rfl : kv.2 = a := by simpa using h
        have hkvmem : kv ∈ pm := List.mem_of_find?_eq_some hf
        obtain ⟨pr, _, hlook⟩ := Option.bind_eq_some.mp hpr
        obtain ⟨e, hemem, hev⟩ := mem_of_lookup_eq_some pr pm tokenAddressMap hlook
        exact tokenAddressMap_values_ne_empty e hemem kv (hev ▸ hkvmem)

/-- A hit in the address index can only be under a non-empty key. -/
theorem getAddress_key_ne_empty (pools : List Pool) (k : String) (p : Pool)
    (h : (buildPoolLookup pools).getAddress k = some p) : k ≠ "" := by
  unfold PoolLookup.getAddress buildPoolLookup at h
  cases hl : (((List.filterMap
      (fun p => (getTokenAddressForPool p).map (fun a => (jsToLower a, p))) pools)).filter
      (fun kv => kv.1 = k)).getLast? with
  | none => rw [hl] at h; cases h
  | some kv =>
    have hmemf := List.mem_of_getLast?_eq_some hl
    rw [List.mem_filter] at hmemf
    obtain ⟨hmem, hkey⟩ := hmemf
    rw [List.mem_filterMap] at hmem
    obtain ⟨q, _, hq⟩ := hmem
    obtain ⟨addr, haddr, hkv⟩ := Option.map_eq_some'.mp hq
    have : kv.1 = k := by simpa using hkey
    rw [← this, ← hkv]
    exact getTokenAddressForPool_key_ne_empty q addr haddr

/-- C4: a holding whose lowercased address hits the catalog's address
index is matched to that indexed pool, whatever its symbol would match. -/
theorem matchHoldingToPool_address_priority (pools : List Pool) (symbol : Option String)
    (a : String) (p : Pool)
    (hhit : (buildPoolLookup pools).getAddress (jsToLower a) = some p) :
    matchHoldingToPool symbol (some a) (buildPoolLookup pools) = some p := by
  have hk : jsToLower a ≠ "" := getAddress_key_ne_empty pools _ p hhit
  have ha : a ≠ "" := by
    intro hemp
    exact hk (by rw [hemp]; rfl)
  simp [matchHoldingToPool, ha, hhit]

/-- Witness for C4: the aave-v3 token address with a symbol that would
also pattern-match by name. -/
theorem matchHoldingToPool_address_priority_witness :
    matchHoldingToPool (some "MUSDC") (some "0x4e65fE4DbA92790696d040ac24Aa414708F5c0AB")
        (buildPoolLookup samplePools) =
      some (samplePools.get ⟨0, by decide⟩) :=
  matchHoldingToPool_address_priority samplePools (some "MUSDC")
    "0x4e65fE4DbA92790696d040ac24Aa414708F5c0AB" _ (by decide)

/-! ## C2: the emitted-recommendation invariant and the gain computation -/

/-- The single-member account of the gain-computation scenario. -/
def sampleGainUser : User :=
  { address := some "0xuser", membershipId := some "m1",
    yieldBearingHoldings := [sampleRichHolding] }

/-- A member of `calculateRotations` came from some user's holding that
passed both guards. -/
theorem mem_calculateRotations (cfg : Config) (users : List User) (bp : TopPool)
    (r : Rotation) (hr : r ∈ calculateRotations cfg users (some bp)) :
    ∃ u ∈ users, ∃ h ∈ u.yieldBearingHoldings,
      isInBestPool h bp = false ∧ shouldRotate cfg h.currentApy bp.apy = true ∧
      r = mkRotation u h bp := by
  rw [calculateRotations, List.mem_flatMap] at hr
  obtain ⟨u, hu, hr⟩ := hr
  rw [List.mem_filterMap] at hr
  obtain ⟨h, hh, hg⟩ := hr
  refine ⟨u, hu, h, hh, ?_⟩
  by_cases hbest : isInBestPool h bp
  · rw [if_pos hbest] at hg; cases hg
  · rw [if_neg hbest] at hg
    by_cases hrot : shouldRotate cfg h.currentApy bp.apy
    · rw [if_pos hrot] at hg
      exact ⟨by simpa using hbest, hrot, (Option.some.inj hg).symm⟩
    · rw [if_neg hrot] at hg; cases hg

/-- The skip guard rejects the gain-scenario holding (different project). -/
theorem sampleRich_not_in_best : isInBestPool sampleRichHolding sampleTop65 = false := by
  simp only [isInBestPool, strStrictEq, sampleRichHolding, sampleTop65]
  decide

/-- The threshold approves the gain-scenario holding. -/
theorem sampleRich_shouldRotate :
    shouldRotate defaultConfig sampleRichHolding.currentApy sampleTop65.apy = true := by
  simp only [shouldRotate, defaultConfig, sampleRichHolding, sampleTop65]
  norm_num

/-- C2: every emitted recommendation has
`apyImprovement = toToken.targetApy - fromToken.currentApy`, at least the
configured minimum improvement, and
`estimatedAnnualGainUsd = fromToken.balanceUsd * apyImprovement / 100`; in
particular a 1000 USD holding at 5.0% against a 6.5% target yields
improvement 1.5 and estimated gain 15.0. -/
theorem calculateRotations_gain_invariant :
    (∀ (cfg : Config) (users : List User) (bestPool : Option TopPool) (r : Rotation),
      r ∈ calculateRotations cfg users bestPool →
      ∃ ft tt c a b, r.fromToken = some ft ∧ r.toToken = some tt ∧
        ft.currentApy = some c ∧ tt.targetApy = some a ∧ ft.balanceUsd = some b ∧
        r.apyImprovement = a - c ∧
        cfg.minApyImprovement ≤ r.apyImprovement ∧
        r.estimatedAnnualGainUsd = b * r.apyImprovement / 100) ∧
    (calculateRotations defaultConfig [sampleGainUser] (some sampleTop65)).map
      (fun r => (r.apyImprovement, r.estimatedAnnualGainUsd)) = [(1.5, 15)] := by
  constructor
  · intro cfg users bestPool r hr
    match bestPool with
    | none => rw [calculateRotations] at hr; cases hr
    | some bp =>
      obtain ⟨u, _, h, _, _, hrot, rfl⟩ := mem_calculateRotations cfg users bp r hr
      rw [shouldRotate, decide_eq_true_eq] at hrot
      exact ⟨_, _, h.currentApy, bp.apy, h.balanceUsd, rfl, rfl, rfl, rfl, rfl, rfl, hrot, rfl⟩
  · simp only [calculateRotations, sampleGainUser, List.flatMap_cons, List.flatMap_nil,
      List.filterMap_cons, List.filterMap_nil, List.append_nil,
      sampleRich_not_in_best, sampleRich_shouldRotate]
    simp only [mkRotation, sampleRichHolding, sampleTop65, defaultConfig, Bool.false_eq_true,
      if_false, if_true, List.map_cons, List.map_nil, List.cons.injEq, Prod.mk.injEq,
      and_true, List.nil_eq]
    norm_num

/-- Witness for C2 at the gain-computation scenario. -/
theorem calculateRotations_gain_invariant_witness :
    ∃ ft tt c a b,
      (mkRotation sampleGainUser sampleRichHolding sampleTop65).fromToken = some ft ∧
      (mkRotation sampleGainUser sampleRichHolding sampleTop65).toToken = some tt ∧
      ft.currentApy = some c ∧ tt.targetApy = some a ∧ ft.balanceUsd = some b ∧
      (mkRotation sampleGainUser sampleRichHolding sampleTop65).apyImprovement = a - c ∧
      defaultConfig.minApyImprovement ≤
        (mkRotation sampleGainUser sampleRichHolding sampleTop65).apyImprovement ∧
      (mkRotation sampleGainUser sampleRichHolding sampleTop65).estimatedAnnualGainUsd =
        b * (mkRotation sampleGainUser sampleRichHolding sampleTop65).apyImprovement / 100 :=
  calculateRotations_gain_invariant.1 defaultConfig [sampleGainUser] (some sampleTop65)
    (mkRotation sampleGainUser sampleRichHolding sampleTop65)
    (by
      simp only [calculateRotations, sampleGainUser, List.flatMap_cons, List.flatMap_nil,
        List.filterMap_cons, List.filterMap_nil, List.append_nil,
        sampleRich_not_in_best, sampleRich_shouldRotate]
      simp)

/-! ## C1: which eligible holdings produce a recommendation

The claimed right-hand side `balanceUsd >= minBalanceUsd` is not what the
pipeline enforces: `filterYieldBearingHoldings` also passes a holding with
`balanceUsd === 0 && balance > 0`, and `calculateRotations` never
re-checks the balance, so such a holding still produces a recommendation.
-/

/-- `filterYieldBearingHoldings` on one holding, with its predicate spelled
out. -/
theorem filterYieldBearingHoldings_singleton (cfg : Config) (h : EnrichedHolding)
    (pools : List Pool) :
    filterYieldBearingHoldings cfg [h] pools =
      if ((rotatableStableSymbols.contains (jsToUpper (h.symbol.getD "")) ||
            (matchHoldingToPool h.symbol h.address (buildPoolLookup pools)).isSome) &&
          (decide (cfg.minBalanceUsd ≤ h.balanceUsd) ||
            (decide (h.balanceUsd = 0) && decide (0 < h.balance)))) = true
      then [h] else [] := by
  rw [filterYieldBearingHoldings]
  simp only [List.filter_cons, List.filter_nil]

/-- C1 counterexample: a plain-USDC holding with a positive token balance
but `balanceUsd = 0` is rotation-eligible, is not in the best pool, and
still produces an emitted recommendation, although its USD value is below
the configured minimum. -/
theorem rotationPipeline_minBalance_counterexample :
    rotatableStableSymbols.contains (jsToUpper (sampleZeroUsdHolding.symbol.getD "")) = true ∧
    isInBestPool sampleZeroUsdHolding sampleTop = false ∧
    calculateRotations defaultConfig
        [{ address := some "0xuser2", membershipId := some "m2",
           yieldBearingHoldings :=
             filterYieldBearingHoldings defaultConfig [sampleZeroUsdHolding] samplePools }]
        (some sampleTop) ≠ [] ∧
    ¬ (defaultConfig.minBalanceUsd ≤ sampleZeroUsdHolding.balanceUsd) := by
  have hnib : isInBestPool sampleZeroUsdHolding sampleTop = false := by
    simp only [isInBestPool, strStrictEq, sampleZeroUsdHolding, sampleTop]
    decide
  have hfil : filterYieldBearingHoldings defaultConfig [sampleZeroUsdHolding] samplePools =
      [sampleZeroUsdHolding] := by decide
  have hrot : shouldRotate defaultConfig sampleZeroUsdHolding.currentApy sampleTop.apy = true := by
    simp only [shouldRotate, defaultConfig, sampleZeroUsdHolding, sampleTop]
    norm_num
  refine ⟨by decide, hnib, ?_, ?_⟩
  · rw [hfil]
    simp only [calculateRotations, List.flatMap_cons, List.flatMap_nil,
      List.filterMap_cons, List.filterMap_nil, List.append_nil, hnib, hrot]
    simp
  · simp only [defaultConfig, sampleZeroUsdHolding]
    norm_num

/-- C1 amended: a rotation-eligible holding that is not already in the
best pool produces an emitted recommendation iff the improvement clears
the threshold AND it meets the filter's minimum-balance rule, which also
accepts `balanceUsd = 0` with a positive token balance. -/
theorem rotationPipeline_emits_iff (cfg : Config) (pools : List Pool) (top : TopPool)
    (addr mid : Option String) (h : EnrichedHolding)
    (helig : rotatableStableSymbols.contains (jsToUpper (h.symbol.getD "")) = true ∨
             (matchHoldingToPool h.symbol h.address (buildPoolLookup pools)).isSome = true)
    (hnot : isInBestPool h top = false) :
    calculateRotations cfg
        [{ address := addr, membershipId := mid,
           yieldBearingHoldings := filterYieldBearingHoldings cfg [h] pools }]
        (some top) ≠ [] ↔
      (cfg.minApyImprovement ≤ top.apy - h.currentApy ∧
        (cfg.minBalanceUsd ≤ h.balanceUsd ∨ (h.balanceUsd = 0 ∧ 0 < h.balance))) := by
  have heligb : (rotatableStableSymbols.contains (jsToUpper (h.symbol.getD "")) ||
      (matchHoldingToPool h.symbol h.address (buildPoolLookup pools)).isSome) = true := by
    rw [Bool.or_eq_true]
    exact helig
  rw [filterYieldBearingHoldings_singleton, heligb]
  by_cases hm : (cfg.minBalanceUsd ≤ h.balanceUsd ∨ (h.balanceUsd = 0 ∧ 0 < h.balance))
  · have hmb : (decide (cfg.minBalanceUsd ≤ h.balanceUsd) ||
        (decide (h.balanceUsd = 0) && decide (0 < h.balance))) = true := by
      rcases hm with hm | ⟨hm1, hm2⟩
      · simp [hm]
      · simp [hm1, hm2]
    rw [hmb]
    simp only [Bool.true_and, if_pos rfl, calculateRotations, List.flatMap_cons,
      List.flatMap_nil, List.filterMap_cons, List.filterMap_nil, List.append_nil, hnot]
    by_cases hr : shouldRotate cfg h.currentApy top.apy
    · rw [shouldRotate, decide_eq_true_eq] at hr
      simp [shouldRotate, hr, hm, hnot]
    · rw [shouldRotate, decide_eq_true_eq] at hr
      simp [shouldRotate, hr, hnot]
  · have hmb : (decide (cfg.minBalanceUsd ≤ h.balanceUsd) ||
        (decide (h.balanceUsd = 0) && decide (0 < h.balance))) = false := by
      push_neg at hm
      obtain ⟨hm1, hm2⟩ := hm
      have hnm : ¬ (cfg.minBalanceUsd ≤ h.balanceUsd) := not_le.mpr hm1
      by_cases hz : h.balanceUsd = 0
      · have hnb : ¬ (0 < h.balance) := not_lt.mpr (hm2 hz)
        simp [hnm, hnb]
      · simp [hnm, hz]
    rw [hmb]
    simp only [Bool.and_false, calculateRotations]
    simp [hm]

/-- Witness for C1 (amended) at a 1000 USD plain-USDC holding against the
6.1% top pool. -/
theorem rotationPipeline_emits_iff_witness :
    calculateRotations defaultConfig
        [{ address := some "0xuser", membershipId := some "m1",
           yieldBearingHoldings :=
             filterYieldBearingHoldings defaultConfig [sampleRichHolding] samplePools }]
        (some sampleTop) ≠ [] ↔
      (defaultConfig.minApyImprovement ≤ sampleTop.apy - sampleRichHolding.currentApy ∧
        (defaultConfig.minBalanceUsd ≤ sampleRichHolding.balanceUsd ∨
          (sampleRichHolding.balanceUsd = 0 ∧ 0 < sampleRichHolding.balance))) :=
  rotationPipeline_emits_iff defaultConfig samplePools sampleTop (some "0xuser") (some "m1")
    sampleRichHolding (Or.inl (by decide)) (by
      simp only [isInBestPool, strStrictEq, sampleRichHolding, sampleTop]
      decide)

/-! ## C8: dispatcher validation fails closed exactly on the five rules -/

/-- C8: `validateSwap` (a total function, so it never throws) reports
`valid = false` iff the account address is absent/empty, a source or
destination symbol is absent/empty, the source balance is absent or not
strictly positive, or the source `balanceUsd` is present but below the
configured minimum. -/
theorem validateSwap_fails_iff (cfg : Config) (r : Rotation) :
    (validateSwap cfg r).valid = false ↔
      (strTruthy r.userAddress = false ∨
       strTruthy (r.fromToken.bind FromToken.symbol) = false ∨
       strTruthy (r.toToken.bind ToToken.symbol) = false ∨
       (r.fromToken.bind FromToken.balance = none ∨
         ∃ b, r.fromToken.bind FromToken.balance = some b ∧ b ≤ 0) ∨
       (∃ u, r.fromToken.bind FromToken.balanceUsd = some u ∧ u < cfg.minBalanceUsd)) := by
  simp only [validateSwap]
  by_cases h1 : strTruthy r.userAddress = true <;>
    by_cases h2 : strTruthy (r.fromToken.bind FromToken.symbol) = true <;>
      by_cases h3 : strTruthy (r.toToken.bind ToToken.symbol) = true <;>
        cases hb : r.fromToken.bind FromToken.balance <;>
          cases hu : r.fromToken.bind FromToken.balanceUsd <;>
            simp only [h1, h2, h3, hb, hu, if_true, if_false, Bool.not_eq_true] <;>
              (try split_ifs) <;>
                simp_all

/-! ## C10: enrichment is pointwise, order- and field-preserving -/

/-- C10: `getCurrentHoldingApy` returns one output per input holding, in
order; each output keeps every input field, has `hasYieldData` exactly
when a pool matched, and has `currentApy = 0` when no pool matched or the
matched pool carries no apy. -/
theorem getCurrentHoldingApy_pointwise (userHoldings : List Holding)
    (yieldPools : List Pool) :
    (getCurrentHoldingApy userHoldings yieldPools).length = userHoldings.length ∧
    ∀ i : Fin userHoldings.length,
      ∃ e, (getCurrentHoldingApy userHoldings yieldPools)[i.1]? = some e ∧
        e.symbol = (userHoldings.get i).symbol ∧
        e.address = (userHoldings.get i).address ∧
        e.balance = (userHoldings.get i).balance ∧
        e.balanceUsd = (userHoldings.get i).balanceUsd ∧
        e.decimals = (userHoldings.get i).decimals ∧
        e.hasYieldData = (matchHoldingToPool (userHoldings.get i).symbol
          (userHoldings.get i).address (buildPoolLookup yieldPools)).isSome ∧
        ((matchHoldingToPool (userHoldings.get i).symbol (userHoldings.get i).address
              (buildPoolLookup yieldPools) = none ∨
          ∃ p, matchHoldingToPool (userHoldings.get i).symbol (userHoldings.get i).address
              (buildPoolLookup yieldPools) = some p ∧ p.apy = none) →
          e.currentApy = 0) := by
  by_cases hemp : userHoldings = []
  · subst hemp
    exact ⟨by simp [getCurrentHoldingApy], fun i => i.elim0⟩
  · have hne : ¬ (userHoldings.isEmpty = true) := by simp [hemp]
    rw [getCurrentHoldingApy, if_neg hne]
    refine ⟨List.length_map _ _, fun i => ?_⟩
    refine ⟨enrichHolding (buildPoolLookup yieldPools) (userHoldings.get i), ?_,
      rfl, rfl, rfl, rfl, rfl, rfl, ?_⟩
    · rw [List.getElem?_map, List.getElem?_eq_getElem i.2]
      rfl
    · intro hc
      rcases hc with hc | ⟨p, hp, hap⟩
      · rw [List.get_eq_getElem] at hc
        simp [enrichHolding, hc]
      · rw [List.get_eq_getElem] at hp
        simp [enrichHolding, hp, hap]

/-- Witness for C10 at the test fixtures. -/
theorem getCurrentHoldingApy_pointwise_witness :
    (getCurrentHoldingApy sampleHoldings samplePools).length = sampleHoldings.length ∧
    ∀ i : Fin sampleHoldings.length,
      ∃ e, (getCurrentHoldingApy sampleHoldings samplePools)[i.1]? = some e ∧
        e.symbol = (sampleHoldings.get i).symbol ∧
        e.address = (sampleHoldings.get i).address ∧
        e.balance = (sampleHoldings.get i).balance ∧
        e.balanceUsd = (sampleHoldings.get i).balanceUsd ∧
        e.decimals = (sampleHoldings.get i).decimals ∧
        e.hasYieldData = (matchHoldingToPool (sampleHoldings.get i).symbol
          (sampleHoldings.get i).address (buildPoolLookup samplePools)).isSome ∧
        ((matchHoldingToPool (sampleHoldings.get i).symbol (sampleHoldings.get i).address
              (buildPoolLookup samplePools) = none ∨
          ∃ p, matchHoldingToPool (sampleHoldings.get i).symbol (sampleHoldings.get i).address
              (buildPoolLookup samplePools) = some p ∧ p.apy = none) →
          e.currentApy = 0) :=
  getCurrentHoldingApy_pointwise sampleHoldings samplePools

/-! ## C6: the top-yield selection walks the descending ranking

The claim quantifies over every non-empty pool list, but on a list holding
a pool with a mapped project and an absent symbol the walk raises the
`getTokenAddress` TypeError instead of returning anything, so the claim as
stated fails; it holds once such pools are excluded.
-/

/-- When no walked pool raises the TypeError, the walk cannot error. -/
theorem walkForAddress_ne_error :
    ∀ l : List Pool, (∀ q ∈ l, tokenThrows q = false) →
      ∀ e, walkForAddress l ≠ Except.error e := by
  intro l
  induction l with
  | nil =>
    intro _ e h
    simp [walkForAddress] at h
  | cons a t ih =>
    intro hok e h
    cases hga : getTokenAddress a.project a.symbol with
    | error e2 =>
      have := hok a (List.mem_cons_self _ _)
      simp [tokenThrows, hga] at this
    | ok oaddr =>
      cases oaddr with
      | some addr =>
        simp [walkForAddress, hga] at h
      | none =>
        simp only [walkForAddress, hga] at h
        exact ih (fun q hq => hok q (List.mem_cons_of_mem _ hq)) e h

/-- Walking an APY-descending list whose pools never throw, the first
resolving pool is a maximal-APY resolving pool; an exhausted walk means no
pool resolves. -/
theorem walkForAddress_sorted_max :
    ∀ l : List Pool, l.Sorted apyGE → (∀ q ∈ l, tokenThrows q = false) →
      (∀ p addr, walkForAddress l = Except.ok (some (p, addr)) →
        getTokenAddress p.project p.symbol = Except.ok (some addr) ∧ p ∈ l ∧
        ∀ q ∈ l, resolvable q = true → apyD q ≤ apyD p) ∧
      (walkForAddress l = Except.ok none → ∀ q ∈ l, resolvable q = false) := by
  intro l
  induction l with
  | nil =>
    intro _ _
    constructor
    · intro p addr h
      simp [walkForAddress] at h
    · intro _ q hq
      exact absurd hq (List.not_mem_nil q)
  | cons a t ih =>
    intro hs hok
    rw [List.sorted_cons] at hs
    obtain ⟨ha, ht⟩ := hs
    obtain ⟨ih1, ih2⟩ := ih ht (fun q hq => hok q (List.mem_cons_of_mem _ hq))
    cases hga : getTokenAddress a.project a.symbol with
    | error e =>
      have := hok a (List.mem_cons_self _ _)
      simp [tokenThrows, hga] at this
    | ok oaddr =>
      cases oaddr with
      | some addr =>
        constructor
        · intro p paddr h
          simp only [walkForAddress, hga] at h
          obtain ⟨rfl, rfl⟩ : a = p ∧ addr = paddr := by
            simpa [Prod.ext_iff] using h
          refine ⟨hga, List.mem_cons_self _ _, fun q hq _ => ?_⟩
          rcases List.mem_cons.mp hq with rfl | hq'
          · exact le_refl _
          · exact ha q hq'
        · intro h
          simp [walkForAddress, hga] at h
      | none =>
        constructor
        · intro p paddr h
          simp only [walkForAddress, hga] at h
          obtain ⟨h1, h2, h3⟩ := ih1 p paddr h
          refine ⟨h1, List.mem_cons_of_mem _ h2, fun q hq hrq => ?_⟩
          rcases List.mem_cons.mp hq with rfl | hq'
          · simp [resolvable, hga] at hrq
          · exact h3 q hq' hrq
        · intro h q hq
          simp only [walkForAddress, hga] at h
          rcases List.mem_cons.mp hq with rfl | hq'
          · simp [resolvable, hga]
          · exact ih2 h q hq'

/-- The pool that makes the walk throw: a mapped project with an absent
symbol. -/
def sampleThrowingPool : Pool :=
  { poolId := some "aave-base-missing-symbol", chain := some "Base", symbol := none,
    project := some "aave-v3", apy := some 9, tvlUsd := some 500000, stablecoin := true }

/-- C6 counterexample: on this non-empty pool list `getTopYieldingStable`
raises the TypeError (`symbol.toUpperCase()` on an absent symbol under a
mapped project) instead of returning any record, so the claim as stated
fails. -/
theorem getTopYieldingStable_throws_counterexample :
    ([sampleThrowingPool] : List Pool) ≠ [] ∧
    getTopYieldingStable (some [sampleThrowingPool]) = Except.error () := by
  constructor
  · simp
  · rfl

/-- C6 (amended): `getTopYieldingStable` returns `null` exactly on a
nullish or empty input; on a non-empty list none of whose pools raises the
token-address TypeError, it returns the highest-APY pool with a resolvable
token address, or, when no pool resolves, the overall highest-APY pool
with `tokenAddress = null`. -/
theorem getTopYieldingStable_spec :
    getTopYieldingStable none = Except.ok none ∧
    getTopYieldingStable (some []) = Except.ok none ∧
    ∀ ps : List Pool, ps ≠ [] → (∀ q ∈ ps, tokenThrows q = false) →
      ∃ t, getTopYieldingStable (some ps) = Except.ok (some t) ∧
        ((∃ p addr, p ∈ ps ∧
            getTokenAddress p.project p.symbol = Except.ok (some addr) ∧
            resolvable p = true ∧ t = mkTopPool p (some addr) ∧
            t.tokenAddress.isSome = true ∧
            ∀ q ∈ ps, resolvable q = true → apyD q ≤ apyD p) ∨
         ((∀ q ∈ ps, resolvable q = false) ∧ t.tokenAddress = none ∧
            ∃ p, p ∈ ps ∧ t = mkTopPool p none ∧ ∀ q ∈ ps, apyD q ≤ apyD p)) := by
  refine ⟨rfl, rfl, fun ps hps hnothrow => ?_⟩
  have hsorted : (sortByApyDesc ps).Sorted apyGE := List.sorted_insertionSort apyGE ps
  have hperm : List.Perm (sortByApyDesc ps) ps := List.perm_insertionSort apyGE ps
  have hne : ¬ (ps.isEmpty = true) := by simpa [List.isEmpty_iff] using hps
  have hok_sorted : ∀ q ∈ sortByApyDesc ps, tokenThrows q = false := fun q hq =>
    hnothrow q (hperm.mem_iff.mp hq)
  obtain ⟨hfind, hnone⟩ := walkForAddress_sorted_max (sortByApyDesc ps) hsorted hok_sorted
  simp only [getTopYieldingStable, if_neg hne]
  cases hf : walkForAddress (sortByApyDesc ps) with
  | error e =>
    exact absurd hf (walkForAddress_ne_error _ hok_sorted e)
  | ok result =>
    cases result with
    | some pr =>
      obtain ⟨p, addr⟩ := pr
      obtain ⟨h1, hmem, hmax⟩ := hfind p addr hf
      refine ⟨_, rfl, Or.inl ⟨p, addr, hperm.mem_iff.mp hmem, h1,
        by simp [resolvable, h1], rfl, rfl, fun q hq hrq => ?_⟩⟩
      exact hmax q (hperm.mem_iff.mpr hq) hrq
    | none =>
      have hall : ∀ q ∈ ps, resolvable q = false := fun q hq =>
        hnone hf q (hperm.mem_iff.mpr hq)
      cases hsort : sortByApyDesc ps with
      | nil =>
        rw [hsort] at hperm
        exact absurd hperm.symm.eq_nil hps
      | cons b t' =>
        have hsorted' := hsort ▸ hsorted
        rw [List.sorted_cons] at hsorted'
        have hbmem : b ∈ ps := hperm.mem_iff.mp (hsort ▸ List.mem_cons_self b t')
        refine ⟨_, rfl, Or.inr ⟨hall, rfl, b, hbmem, rfl, fun q hq => ?_⟩⟩
        have hqs : q ∈ sortByApyDesc ps := hperm.mem_iff.mpr hq
        rw [hsort] at hqs
        rcases List.mem_cons.mp hqs with rfl | hq'
        · exact le_refl _
        · exact hsorted'.1 q hq'

/-- Witness for C6 at the sample catalog (no pool throws; the 6.1%
moonwell pool resolves). -/
theorem getTopYieldingStable_spec_witness :
    ∃ t, getTopYieldingStable (some samplePools) = Except.ok (some t) ∧
      ((∃ p addr, p ∈ samplePools ∧
          getTokenAddress p.project p.symbol = Except.ok (some addr) ∧
          resolvable p = true ∧ t = mkTopPool p (some addr) ∧
          t.tokenAddress.isSome = true ∧
          ∀ q ∈ samplePools, resolvable q = true → apyD q ≤ apyD p) ∨
       ((∀ q ∈ samplePools, resolvable q = false) ∧ t.tokenAddress = none ∧
          ∃ p, p ∈ samplePools ∧ t = mkTopPool p none ∧
            ∀ q ∈ samplePools, apyD q ≤ apyD p)) :=
  getTopYieldingStable_spec.2.2 samplePools (by decide) (by decide)

/-! ## C9: the retry policy of the yield-feed fetch -/

/-- Complete behaviour of the retry loop `fetchGo`: attempt count bounds,
the exact delay schedule, success on the first succeeding attempt, and
failure exactly when every allowed attempt fails. -/
theorem fetchGo_spec (oracle : ℕ → Except Unit (List Pool)) (delayMs : ℚ) :
    ∀ remaining attempt : ℕ,
      (fetchGo oracle delayMs attempt remaining).attemptsMade ≤ remaining ∧
      (1 ≤ remaining → 1 ≤ (fetchGo oracle delayMs attempt remaining).attemptsMade) ∧
      (fetchGo oracle delayMs attempt remaining).delays =
        (List.range ((fetchGo oracle delayMs attempt remaining).attemptsMade - 1)).map
          (fun i => delayMs * ((attempt + i : ℕ) : ℚ)) ∧
      (∀ l, (fetchGo oracle delayMs attempt remaining).result = Except.ok l →
        1 ≤ (fetchGo oracle delayMs attempt remaining).attemptsMade ∧
        oracle (attempt + (fetchGo oracle delayMs attempt remaining).attemptsMade - 1) =
          Except.ok l ∧
        ∀ j, attempt ≤ j →
          j < attempt + (fetchGo oracle delayMs attempt remaining).attemptsMade - 1 →
          oracle j = Except.error ()) ∧
      ((fetchGo oracle delayMs attempt remaining).result = Except.error () ↔
        ∀ j, attempt ≤ j → j < attempt + remaining → oracle j = Except.error ()) ∧
      ((fetchGo oracle delayMs attempt remaining).result = Except.error () →
        remaining = 0 ∨
          (fetchGo oracle delayMs attempt remaining).attemptsMade = remaining) := by
  intro remaining
  induction remaining with
  | zero =>
    intro attempt
    refine ⟨le_refl _, by omega, rfl, ?_, ?_, fun _ => Or.inl rfl⟩
    · intro l hl
      simp [fetchGo] at hl
    · constructor
      · intro _ j hj1 hj2
        omega
      · intro _
        rfl
  | succ r ih =>
    intro attempt
    cases ho : oracle attempt with
    | ok pools =>
      simp only [fetchGo, ho]
      refine ⟨by omega, fun _ => le_refl _, by simp, ?_, ?_, ?_⟩
      · intro l hl
        obtain rfl : pools = l := by simpa using hl
        refine ⟨le_refl _, ?_, ?_⟩
        · rw [show attempt + 1 - 1 = attempt from by omega]
          exact ho
        · intro j hj1 hj2
          omega
      · constructor
        · intro h
          cases h
        · intro hall
          have := hall attempt (le_refl _) (by omega)
          rw [ho] at this
          cases this
      · intro h
        cases h
    | error e =>
      obtain rfl : e = () := rfl
      by_cases hr0 : r = 0
      · subst hr0
        simp only [fetchGo, ho, if_pos rfl]
        refine ⟨le_refl _, fun _ => le_refl _, by simp, ?_, ?_, fun _ => Or.inr rfl⟩
        · intro l hl
          cases hl
        · constructor
          · intro _ j hj1 hj2
            rw [show j = attempt from by omega]
            exact ho
          · intro _
            rfl
      · obtain ⟨h1, h1b, h2, h3, h4, h5⟩ := ih (attempt + 1)
        have hrest1 : 1 ≤ (fetchGo oracle delayMs (attempt + 1) r).attemptsMade :=
          h1b (by omega)
        simp only [fetchGo, ho, if_neg hr0]
        refine ⟨by omega, fun _ => by omega, ?_, ?_, ?_, ?_⟩
        · rw [h2, show (fetchGo oracle delayMs (attempt + 1) r).attemptsMade + 1 - 1 =
            ((fetchGo oracle delayMs (attempt + 1) r).attemptsMade - 1) + 1 from by omega,
            List.range_succ_eq_map, List.map_cons, List.map_map]
          refine congrArg₂ List.cons (by norm_num) ?_
          refine List.map_congr_left (fun i _ => ?_)
          have harg : attempt + 1 + i = attempt + Nat.succ i := by omega
          simp [Function.comp, harg]
        · intro l hl
          obtain ⟨hn, hok, hfail⟩ := h3 l hl
          refine ⟨by omega, ?_, ?_⟩
          · rw [show attempt + ((fetchGo oracle delayMs (attempt + 1) r).attemptsMade + 1) - 1 =
              attempt + 1 + (fetchGo oracle delayMs (attempt + 1) r).attemptsMade - 1 from
              by omega]
            exact hok
          · intro j hj1 hj2
            rcases Nat.eq_or_lt_of_le hj1 with rfl | hj1'
            · exact ho
            · exact hfail j (by omega) (by omega)
        · constructor
          · intro h j hj1 hj2
            rcases Nat.eq_or_lt_of_le hj1 with rfl | hj1'
            · exact ho
            · exact (h4.mp h) j (by omega) (by omega)
          · intro hall
            exact h4.mpr (fun j hj1 hj2 => hall j (by omega) (by omega))
        · intro h
          rcases h5 h with h | h
          · exact absurd h hr0
          · exact Or.inr (by omega)

/-- C9: `fetchYieldPools` makes at most `config.maxRetries` attempts,
returns the pool list of the first successful attempt (all earlier ones
having failed), sleeps `retryDelayMs * attemptNumber` between consecutive
attempts, and fails only when all `maxRetries` attempts failed. -/
theorem fetchYieldPools_retry_policy (cfg : Config)
    (oracle : ℕ → Except Unit (List Pool)) :
    (fetchYieldPools cfg oracle).attemptsMade ≤ cfg.maxRetries ∧
    (fetchYieldPools cfg oracle).delays =
      (List.range ((fetchYieldPools cfg oracle).attemptsMade - 1)).map
        (fun i => cfg.retryDelayMs * ((1 + i : ℕ) : ℚ)) ∧
    (∀ l, (fetchYieldPools cfg oracle).result = Except.ok l →
      1 ≤ (fetchYieldPools cfg oracle).attemptsMade ∧
      oracle (fetchYieldPools cfg oracle).attemptsMade = Except.ok l ∧
      ∀ j, 1 ≤ j → j < (fetchYieldPools cfg oracle).attemptsMade →
        oracle j = Except.error ()) ∧
    ((fetchYieldPools cfg oracle).result = Except.error () ↔
      ∀ j, 1 ≤ j → j ≤ cfg.maxRetries → oracle j = Except.error ()) ∧
    ((fetchYieldPools cfg oracle).result = Except.error () →
      cfg.maxRetries = 0 ∨
        (fetchYieldPools cfg oracle).attemptsMade = cfg.maxRetries) := by
  obtain ⟨h1, _, h2, h3, h4, h5⟩ := fetchGo_spec oracle cfg.retryDelayMs cfg.maxRetries 1
  rw [fetchYieldPools]
  refine ⟨h1, h2, ?_, ?_, h5⟩
  · intro l hl
    obtain ⟨hn, hok, hfail⟩ := h3 l hl
    refine ⟨hn, ?_, ?_⟩
    · rw [show (fetchGo oracle cfg.retryDelayMs 1 cfg.maxRetries).attemptsMade =
        1 + (fetchGo oracle cfg.retryDelayMs 1 cfg.maxRetries).attemptsMade - 1 from by omega]
      exact hok
    · intro j hj1 hj2
      exact hfail j hj1 (by omega)
  · constructor
    · intro h j hj1 hj2
      exact (h4.mp h) j hj1 (by omega)
    · intro hall
      exact h4.mpr (fun j hj1 hj2 => hall j hj1 (by omega))

/-- An attempt oracle failing on the first two attempts. -/
def sampleOracle (n : ℕ) : Except Unit (List Pool) :=
  if n < 3 then Except.error () else Except.ok []

/-- Witness for C9 at `sampleOracle`. -/
theorem fetchYieldPools_retry_policy_witness :
    (fetchYieldPools defaultConfig sampleOracle).attemptsMade ≤ defaultConfig.maxRetries ∧
    (fetchYieldPools defaultConfig sampleOracle).delays =
      (List.range ((fetchYieldPools defaultConfig sampleOracle).attemptsMade - 1)).map
        (fun i => defaultConfig.retryDelayMs * ((1 + i : ℕ) : ℚ)) ∧
    (∀ l, (fetchYieldPools defaultConfig sampleOracle).result = Except.ok l →
      1 ≤ (fetchYieldPools defaultConfig sampleOracle).attemptsMade ∧
      sampleOracle (fetchYieldPools defaultConfig sampleOracle).attemptsMade = Except.ok l ∧
      ∀ j, 1 ≤ j → j < (fetchYieldPools defaultConfig sampleOracle).attemptsMade →
        sampleOracle j = Except.error ()) ∧
    ((fetchYieldPools defaultConfig sampleOracle).result = Except.error () ↔
      ∀ j, 1 ≤ j → j ≤ defaultConfig.maxRetries → sampleOracle j = Except.error ()) ∧
    ((fetchYieldPools defaultConfig sampleOracle).result = Except.error () →
      defaultConfig.maxRetries = 0 ∨
        (fetchYieldPools defaultConfig sampleOracle).attemptsMade =
          defaultConfig.maxRetries) :=
  fetchYieldPools_retry_policy defaultConfig sampleOracle

end SwarmRotation
